import Mathlib

/-!
Verification of the endee-web-ui validation and orchestration layer.

The definitions below are a shallow embedding of the TypeScript source:

* a model of the JavaScript primitives the pages rely on
  (`JSON.parse`, `parseInt`, `String.prototype.trim`,
  `String.prototype.toLowerCase`, `String.prototype.includes`);
* the form handlers `SearchPage.handleSearch`,
  `VectorInsertPage.parseVector` / `handleSubmit`,
  `CreateIndexPage.handleSubmit`;
* the API client adapter (`isUnauthorizedError`, `handleApiError`,
  `ApiClient.insertVectors`);
* the auth context (`handleUnauthorized`) and the raw fetch call sites of
  the backup flows;
* the backup-job polling effect of `BackupsPage`.

Theorems at the end settle the specification claims against these
definitions.
-/

/-! ## JSON values

`JSON.parse` is the JavaScript built-in used throughout the UI.  We model
JSON values with the literal text of numbers retained (the UI never
interprets numeric values: it only passes parsed arrays through and
compares lengths). -/

inductive Json where
  | null : Json
  | bool (b : Bool) : Json
  | num (lit : String) : Json
  | str (s : String) : Json
  | arr (elems : List Json) : Json
  | obj (members : List (String × Json)) : Json

/-- JSON whitespace: space, tab, line feed, carriage return. -/
def isWsJson (c : Char) : Bool :=
  decide (c.toNat = 32 ∨ c.toNat = 9 ∨ c.toNat = 10 ∨ c.toNat = 13)

/-- Decimal digit. -/
def isDigit (c : Char) : Bool :=
  decide (48 ≤ c.toNat ∧ c.toNat ≤ 57)

/-- Drop leading JSON whitespace. -/
def skipWs : List Char → List Char
  | [] => []
  | c :: r => if isWsJson c then skipWs r else c :: r

/-- Take the longest prefix of decimal digits. -/
def takeDigits : List Char → List Char × List Char
  | [] => ([], [])
  | c :: r =>
    if isDigit c then
      let p := takeDigits r
      (c :: p.1, p.2)
    else ([], c :: r)

/-- Lex the integer part of a JSON number: `0`, or a nonzero digit followed
by digits (a leading `0` is never followed by more digits, per the JSON
grammar). -/
def lexInt (l : List Char) : Option (List Char × List Char) :=
  match l with
  | [] => none
  | c :: r =>
    if c = '0' then some (['0'], r)
    else if isDigit c then some (c :: (takeDigits r).1, (takeDigits r).2)
    else none

/-- Lex the optional fraction part of a JSON number: `.` followed by at
least one digit, or nothing. -/
def lexFrac (l : List Char) : Option (List Char × List Char) :=
  match l with
  | [] => some ([], [])
  | c :: r =>
    if c = '.' then
      if (takeDigits r).1 = [] then none
      else some ('.' :: (takeDigits r).1, (takeDigits r).2)
    else some ([], c :: r)

/-- Lex the optional exponent part of a JSON number: `e` or `E`, an
optional sign, and at least one digit, or nothing. -/
def lexExp (l : List Char) : Option (List Char × List Char) :=
  match l with
  | [] => some ([], [])
  | [c] => if c = 'e' ∨ c = 'E' then none else some ([], [c])
  | c :: c2 :: r2 =>
    if c = 'e' ∨ c = 'E' then
      if c2 = '+' ∨ c2 = '-' then
        if (takeDigits r2).1 = [] then none
        else some (c :: c2 :: (takeDigits r2).1, (takeDigits r2).2)
      else
        if (takeDigits (c2 :: r2)).1 = [] then none
        else some (c :: (takeDigits (c2 :: r2)).1, (takeDigits (c2 :: r2)).2)
    else some ([], c :: c2 :: r2)

/-- Lex an unsigned JSON number literal: integer part, optional fraction,
optional exponent.  Returns the literal and the rest of the input. -/
def lexNumBody (l : List Char) : Option (List Char × List Char) :=
  match lexInt l with
  | none => none
  | some ip =>
    match lexFrac ip.2 with
    | none => none
    | some fp =>
      match lexExp fp.2 with
      | none => none
      | some ep => some (ip.1 ++ fp.1 ++ ep.1, ep.2)

/-- Lex a complete JSON number literal: an optional `-` followed by an
unsigned number. -/
def lexNumber (l : List Char) : Option (List Char × List Char) :=
  match l with
  | [] => none
  | c :: r =>
    if c = '-' then
      match lexNumBody r with
      | none => none
      | some p => some ('-' :: p.1, p.2)
    else lexNumBody (c :: r)

/-- Value of a hexadecimal digit. -/
def hexVal (c : Char) : Option Nat :=
  let n := c.toNat
  if 48 ≤ n ∧ n ≤ 57 then some (n - 48)
  else if 97 ≤ n ∧ n ≤ 102 then some (n - 87)
  else if 65 ≤ n ∧ n ≤ 70 then some (n - 55)
  else none

/-- Translation of a JSON string escape character (the character after a
backslash), for the single-character escapes. -/
def escChar (c : Char) : Option Char :=
  if c = '"' then some '"'
  else if c = '\\' then some '\\'
  else if c = '/' then some '/'
  else if c = 'b' then some (Char.ofNat 8)
  else if c = 'f' then some (Char.ofNat 12)
  else if c = 'n' then some '\n'
  else if c = 'r' then some (Char.ofNat 13)
  else if c = 't' then some '\t'
  else none

/-- Lex the body of a JSON string after the opening quote, fuelled by the
input length.  Unescaped control characters are rejected, escapes follow
the JSON grammar.  (A `\u` escape denoting a lone UTF-16 surrogate is
mapped to the default character by `Char.ofNat`; no claim depends on the
decoded text of a string.) -/
def lexStr : Nat → List Char → Option (List Char × List Char)
  | 0, _ => none
  | _, [] => none
  | fuel + 1, c :: r =>
    if c = '"' then some ([], r)
    else if c = '\\' then
      match r with
      | [] => none
      | e :: r2 =>
        if e = 'u' then
          match r2 with
          | a :: b :: c3 :: d :: r3 =>
            match hexVal a, hexVal b, hexVal c3, hexVal d with
            | some va, some vb, some vc, some vd =>
              match lexStr fuel r3 with
              | none => none
              | some (s, r4) =>
                some (Char.ofNat (va * 4096 + vb * 256 + vc * 16 + vd) :: s, r4)
            | _, _, _, _ => none
          | _ => none
        else
          match escChar e with
          | none => none
          | some ec =>
            match lexStr fuel r2 with
            | none => none
            | some (s, r3) => some (ec :: s, r3)
    else if c.toNat < 32 then none
    else
      match lexStr fuel r with
      | none => none
      | some (s, r2) => some (c :: s, r2)

mutual

/-- Parse one JSON value (fuelled; the callers supply fuel exceeding the
input length, and every recursive call consumes at least one character). -/
def parseVal : Nat → List Char → Option (Json × List Char)
  | 0, _ => none
  | fuel + 1, l =>
    match skipWs l with
    | [] => none
    | c :: r =>
      if c = '[' then
        match skipWs r with
        | [] => none
        | c2 :: r2 =>
          if c2 = ']' then some (.arr [], r2)
          else
            match parseVal fuel (c2 :: r2) with
            | none => none
            | some (v, r3) =>
              match parseArrTail fuel r3 with
              | none => none
              | some (vs, r4) => some (.arr (v :: vs), r4)
      else if c = '{' then
        match skipWs r with
        | [] => none
        | c2 :: r2 =>
          if c2 = '}' then some (.obj [], r2)
          else
            match parseMember fuel (c2 :: r2) with
            | none => none
            | some (kv, r3) =>
              match parseObjTail fuel r3 with
              | none => none
              | some (kvs, r4) => some (.obj (kv :: kvs), r4)
      else if c = '"' then
        match lexStr (fuel + 1) r with
        | none => none
        | some (s, r2) => some (.str (String.mk s), r2)
      else if c = 't' then
        match r with
        | 'r' :: 'u' :: 'e' :: r2 => some (.bool true, r2)
        | _ => none
      else if c = 'f' then
        match r with
        | 'a' :: 'l' :: 's' :: 'e' :: r2 => some (.bool false, r2)
        | _ => none
      else if c = 'n' then
        match r with
        | 'u' :: 'l' :: 'l' :: r2 => some (.null, r2)
        | _ => none
      else
        match lexNumber (c :: r) with
        | none => none
        | some (tok, r2) => some (.num (String.mk tok), r2)

/-- Parse the remainder of a JSON array after its first element: a `]`, or
a `,` followed by a value and the rest of the array. -/
def parseArrTail : Nat → List Char → Option (List Json × List Char)
  | 0, _ => none
  | fuel + 1, l =>
    match skipWs l with
    | [] => none
    | c :: r =>
      if c = ']' then some ([], r)
      else if c = ',' then
        match parseVal fuel r with
        | none => none
        | some (v, r2) =>
          match parseArrTail fuel r2 with
          | none => none
          | some (vs, r3) => some (v :: vs, r3)
      else none

/-- Parse one `"key" : value` member of a JSON object. -/
def parseMember : Nat → List Char → Option ((String × Json) × List Char)
  | 0, _ => none
  | fuel + 1, l =>
    match skipWs l with
    | [] => none
    | c :: r =>
      if c = '"' then
        match lexStr (fuel + 1) r with
        | none => none
        | some (k, r2) =>
          match skipWs r2 with
          | [] => none
          | c2 :: r3 =>
            if c2 = ':' then
              match parseVal fuel r3 with
              | none => none
              | some (v, r4) => some ((String.mk k, v), r4)
            else none
      else none

/-- Parse the remainder of a JSON object after its first member. -/
def parseObjTail : Nat → List Char → Option (List (String × Json) × List Char)
  | 0, _ => none
  | fuel + 1, l =>
    match skipWs l with
    | [] => none
    | c :: r =>
      if c = '}' then some ([], r)
      else if c = ',' then
        match parseMember fuel r with
        | none => none
        | some (kv, r2) =>
          match parseObjTail fuel r2 with
          | none => none
          | some (kvs, r3) => some (kv :: kvs, r3)
      else none

end

/-- Model of the JavaScript built-in `JSON.parse`: parse one value, allow
trailing whitespace, reject anything else left over.  `none` models the
thrown `SyntaxError` (whose message text is engine-defined). -/
def Json.parse (s : String) : Option Json :=
  match parseVal (s.data.length + 1) s.data with
  | none => none
  | some (v, rest) =>
    match skipWs rest with
    | [] => some v
    | _ :: _ => none

/-- Model of the idiom `JSON.parse('[' + text + ']')` used by the search
and insert pages for dense and sparse vector fields.  Because the wrapped
text always parses from the opening `[`, a successful parse is always an
array; `none` models the thrown `SyntaxError`. -/
def wrapParse (s : String) : Option (List Json) :=
  match Json.parse ("[" ++ s ++ "]") with
  | some (.arr elems) => some elems
  | _ => none

/-! ## JavaScript string and number primitives -/

/-- Whitespace stripped by `String.prototype.trim` and skipped by
`parseInt`. -/
def isJsSpace (c : Char) : Bool :=
  decide (c.toNat = 32 ∨ c.toNat = 9 ∨ c.toNat = 10 ∨ c.toNat = 13 ∨
    c.toNat = 11 ∨ c.toNat = 12 ∨ c.toNat = 160 ∨ c.toNat = 65279)

/-- Model of `String.prototype.trim`. -/
def jsTrim (s : String) : String :=
  String.mk (((s.data.dropWhile isJsSpace).reverse.dropWhile isJsSpace).reverse)

/-- Model of `String.prototype.toLowerCase` (ASCII range; all strings the
adapter matches against are ASCII). -/
def jsToLower (s : String) : String :=
  String.mk (s.data.map Char.toLower)

/-- Whether `sub` matches at the head of `l`. -/
def matchesAt : List Char → List Char → Bool
  | [], _ => true
  | _ :: _, [] => false
  | a :: as, b :: bs => a == b && matchesAt as bs

/-- Model of `String.prototype.includes`: `sub` occurs contiguously in
`l`. -/
def containsSub (l sub : List Char) : Bool :=
  match l with
  | [] => sub.isEmpty
  | _ :: t => matchesAt sub l || containsSub t sub

/-- Digit value in a given base, as used by `parseInt` (letters in either
case). -/
def digitValBase (base : Nat) (c : Char) : Option Nat :=
  let n := c.toNat
  let v : Option Nat :=
    if 48 ≤ n ∧ n ≤ 57 then some (n - 48)
    else if 97 ≤ n ∧ n ≤ 122 then some (n - 87)
    else if 65 ≤ n ∧ n ≤ 90 then some (n - 55)
    else none
  match v with
  | some v => if v < base then some v else none
  | none => none

/-- Take the longest prefix of digits valid in `base`, returning their
values. -/
def takeDigitsBase (base : Nat) : List Char → List Nat × List Char
  | [] => ([], [])
  | c :: r =>
    match digitValBase base c with
    | some v =>
      let p := takeDigitsBase base r
      (v :: p.1, p.2)
    | none => ([], c :: r)

/-- Model of the JavaScript built-in `parseInt(string)` with no radix
argument: skip leading whitespace, read an optional sign, use base 16
after a `0x`/`0X` prefix and base 10 otherwise, consume leading valid
digits and ignore the rest of the string; `none` models `NaN` (no valid
digit). -/
def jsParseInt (s : String) : Option Int :=
  let l0 := s.data.dropWhile isJsSpace
  let sign : Int :=
    match l0 with
    | c :: _ => if c = '-' then -1 else 1
    | [] => 1
  let l1 :=
    match l0 with
    | c :: r => if c = '-' ∨ c = '+' then r else c :: r
    | [] => []
  let base : Nat :=
    match l1 with
    | c0 :: c1 :: _ => if c0 = '0' ∧ (c1 = 'x' ∨ c1 = 'X') then 16 else 10
    | _ => 10
  let l2 :=
    match l1 with
    | c0 :: c1 :: r => if c0 = '0' ∧ (c1 = 'x' ∨ c1 = 'X') then r else c0 :: c1 :: r
    | l => l
  let ds := (takeDigitsBase base l2).1
  if ds = [] then none
  else some (sign * ((ds.foldl (fun acc d => acc * base + d) 0 : Nat) : Int))

/-! ## Error messages

Validation failures surface either a message the UI constructs itself
(`lit`), the engine-defined message of a `SyntaxError` thrown by
`JSON.parse` (`jsonErr`: its exact text depends on the JavaScript engine,
so we keep it abstract), or the insert flow's wrapper
`"Invalid vector data: " + inner` (`invalidVectorData`). -/
inductive ErrMsg where
  | lit (s : String) : ErrMsg
  | jsonErr : ErrMsg
  | invalidVectorData (inner : ErrMsg) : ErrMsg
deriving DecidableEq

/-! ## SearchPage.handleSearch -/

/-- The search request assembled by `SearchPage.handleSearch` and passed
to `api.searchVectors`; optional fields are absent unless set. -/
structure SearchRequest where
  vector : List Json
  k : Int
  ef : Option Int := none
  filter : Option String := none
  include_vectors : Bool := false
  sparse_indices : Option (List Json) := none
  sparse_values : Option (List Json) := none

/-- Outcome of a search submission: a validation/parse failure rendered as
an error (no network call is made), or a network call carrying the
assembled request. -/
inductive SearchOutcome where
  | error (e : ErrMsg) : SearchOutcome
  | request (req : SearchRequest) : SearchOutcome

/-- The hybrid-index block of `SearchPage.handleSearch`
(SearchPage.tsx lines 102-119): for a hybrid index, each non-blank sparse
field is parsed with the bracket-wrapping idiom and attached to the
request; then, if both are attached their lengths must agree, and if
exactly one is attached the submission fails. -/
def sparseStep (isHybrid : Bool) (sparseIndices sparseValues : String)
    (req : SearchRequest) : SearchOutcome :=
  if !isHybrid then .request req
  else
    match (if jsTrim sparseIndices ≠ "" then (wrapParse sparseIndices).map some
           else some none) with
    | none => .error .jsonErr
    | some oi =>
      match (if jsTrim sparseValues ≠ "" then (wrapParse sparseValues).map some
             else some none) with
      | none => .error .jsonErr
      | some ov =>
        let req := { req with sparse_indices := oi, sparse_values := ov }
        match oi, ov with
        | some a, some b =>
          if a.length ≠ b.length then
            .error (.lit "Sparse indices and values must have the same length")
          else .request req
        | none, none => .request req
        | _, _ =>
          .error (.lit "Both sparse indices and sparse values must be provided together")

/-- `SearchPage.handleSearch` (SearchPage.tsx lines 50-134), up to the
point where the network call fires: parse the dense vector with the
bracket-wrapping idiom and require a non-empty array; `parseInt` the `k`
field and require a positive value; include a non-blank `ef` only when it
parses to a positive integer (silently dropped otherwise); require a
non-blank filter to be valid JSON and pass its trimmed text through; then
run the hybrid sparse block. -/
def handleSearch (isHybrid : Bool)
    (vector sparseIndices sparseValues k ef filter : String)
    (includeVectors : Bool) : SearchOutcome :=
  match wrapParse vector with
  | none => .error .jsonErr
  | some vectorArray =>
    if vectorArray.length = 0 then
      .error (.lit "Vector must be a non-empty array of numbers")
    else
      match jsParseInt k with
      | none => .error (.lit "K must be a positive number")
      | some kValue =>
        if kValue ≤ 0 then .error (.lit "K must be a positive number")
        else
          let base : SearchRequest :=
            { vector := vectorArray, k := kValue, include_vectors := includeVectors }
          let withEf : SearchRequest :=
            if jsTrim ef ≠ "" then
              match jsParseInt ef with
              | some efValue =>
                if 0 < efValue then { base with ef := some efValue } else base
              | none => base
            else base
          if jsTrim filter ≠ "" then
            match Json.parse filter with
            | none => .error (.lit "Filter must be valid JSON")
            | some _ =>
              sparseStep isHybrid sparseIndices sparseValues
                { withEf with filter := some (jsTrim filter) }
          else sparseStep isHybrid sparseIndices sparseValues withEf

/-! ## VectorInsertPage -/

/-- One row of the insert form (interface `VectorInput`). -/
structure VectorInput where
  id : String
  vector : String
  sparse_indices : String
  sparse_values : String
  meta : String
  filter : String

/-- One parsed vector (type `VectorItem` passed to `api.insertVectors`);
optional fields are absent unless set. -/
structure VectorItem where
  id : String
  vector : List Json
  sparseIndices : Option (List Json) := none
  sparseValues : Option (List Json) := none
  meta : Option Json := none
  filter : Option Json := none

/-- The hybrid-only sparse block of `VectorInsertPage.parseVector`
(SearchPage.tsx lines 520-538), identical in structure to the search
page's sparse block but producing a `VectorItem`. -/
def insertSparse (isHybrid : Bool) (input : VectorInput) (base : VectorItem) :
    Except ErrMsg VectorItem :=
  if !isHybrid then .ok base
  else
    match (if jsTrim input.sparse_indices ≠ "" then
             (wrapParse input.sparse_indices).map some
           else some none) with
    | none => .error .jsonErr
    | some oi =>
      match (if jsTrim input.sparse_values ≠ "" then
               (wrapParse input.sparse_values).map some
             else some none) with
      | none => .error .jsonErr
      | some ov =>
        let r := { base with sparseIndices := oi, sparseValues := ov }
        match oi, ov with
        | some a, some b =>
          if a.length ≠ b.length then
            .error (.lit "Sparse indices and values must have the same length")
          else .ok r
        | none, none => .ok r
        | _, _ =>
          .error (.lit "Both sparse indices and sparse values must be provided together")

/-- The body of `VectorInsertPage.parseVector` (SearchPage.tsx lines
504-550) before its catch-all wrapper: require a non-blank id, parse the
dense vector with the bracket-wrapping idiom into a non-empty array, run
the hybrid sparse block, then parse each non-blank metadata and filter
field as JSON. -/
def parseVectorBody (isHybrid : Bool) (input : VectorInput) :
    Except ErrMsg VectorItem :=
  if jsTrim input.id = "" then .error (.lit "Vector ID is required")
  else
    match wrapParse input.vector with
    | none => .error .jsonErr
    | some vectorArray =>
      if vectorArray.length = 0 then
        .error (.lit "Vector must be a non-empty array of numbers")
      else
        match insertSparse isHybrid input
            { id := jsTrim input.id, vector := vectorArray } with
        | .error e => .error e
        | .ok withSparse =>
          match (if jsTrim input.meta ≠ "" then (Json.parse input.meta).map some
                 else some none) with
          | none => .error .jsonErr
          | some om =>
            match (if jsTrim input.filter ≠ "" then
                     (Json.parse input.filter).map some
                   else some none) with
            | none => .error .jsonErr
            | some ofl => .ok { withSparse with meta := om, filter := ofl }

/-- `VectorInsertPage.parseVector` (SearchPage.tsx lines 504-554): any
failure in the body is re-thrown as
`"Invalid vector data: " + err.message`. -/
def parseVector (isHybrid : Bool) (input : VectorInput) :
    Except ErrMsg VectorItem :=
  match parseVectorBody isHybrid input with
  | .ok v => .ok v
  | .error e => .error (.invalidVectorData e)

/-- A row counts as non-empty when its id text or its vector text trims to
something non-empty (`v.id.trim() || v.vector.trim()` in the source's
filter). -/
def rowNonEmpty (v : VectorInput) : Bool :=
  jsTrim v.id != "" || jsTrim v.vector != ""

/-- Run a fallible function over a list, stopping at the first failure —
the `for` loop of `VectorInsertPage.handleSubmit` that parses the batch. -/
def mapExcept (f : α → Except ε β) : List α → Except ε (List β)
  | [] => .ok []
  | a :: l =>
    match f a with
    | .error e => .error e
    | .ok b =>
      match mapExcept f l with
      | .error e => .error e
      | .ok bs => .ok (b :: bs)

/-- Outcome of an insert submission: a failure rendered as an error (no
network call), or a single network call carrying the parsed batch. -/
inductive InsertOutcome where
  | error (e : ErrMsg) : InsertOutcome
  | request (vectors : List VectorItem) : InsertOutcome

/-- The part of `VectorInsertPage.handleSubmit` (SearchPage.tsx lines
563-584) that runs on the already-filtered row list: an empty list fails
with "At least one vector is required"; otherwise every row is parsed
(the first parse failure aborts the whole batch); the guard for an empty
parsed batch is transcribed as in the source. -/
def submitCore (isHybrid : Bool) (nonEmptyVectors : List VectorInput) :
    InsertOutcome :=
  if nonEmptyVectors.length = 0 then
    .error (.lit "At least one vector is required")
  else
    match mapExcept (parseVector isHybrid) nonEmptyVectors with
    | .error e => .error e
    | .ok parsedVectors =>
      if parsedVectors.length = 0 then
        .error (.lit "At least one valid vector is required")
      else .request parsedVectors

/-- `VectorInsertPage.handleSubmit` (SearchPage.tsx lines 556-597) up to
the network call: completely empty rows are filtered out first, then the
rest of the submission runs on the remaining rows. -/
def handleSubmitInsert (isHybrid : Bool) (vectors : List VectorInput) :
    InsertOutcome :=
  submitCore isHybrid (vectors.filter rowNonEmpty)

/-! ## CreateIndexPage.handleSubmit -/

/-- Outcome of a create-index submission: a validation failure (no network
call), or the `api.createIndex` call with the validated arguments. -/
inductive CreateOutcome where
  | error (msg : String) : CreateOutcome
  | create (name : String) (dimension : Int) (spaceType precision : String)
      (sparse_dim : Option Int) (M : Option Int) (ef_con : Option Int) :
      CreateOutcome
deriving DecidableEq

/-- The hybrid-only sparse-dimension validation of
`CreateIndexPage.handleSubmit` (CreateIndexPage.tsx lines 42-50). -/
def createValidateSparse (isHybrid : Bool) (sparseDimension : String) :
    Except String (Option Int) :=
  if isHybrid then
    if sparseDimension = "" then
      .error "Sparse dimension must be a positive number for hybrid indexes"
    else
      match jsParseInt sparseDimension with
      | none =>
        .error "Sparse dimension must be a positive number for hybrid indexes"
      | some s =>
        if s ≤ 0 then
          .error "Sparse dimension must be a positive number for hybrid indexes"
        else .ok (some s)
  else .ok none

/-- The advanced-configuration validation of `CreateIndexPage.handleSubmit`
(CreateIndexPage.tsx lines 52-64): only checked when the advanced section
is shown, and the values are only passed along in that case. -/
def createValidateAdvanced (showAdvanced : Bool)
    (mParam efConstruction : String) : Except String (Option Int × Option Int) :=
  if showAdvanced then
    match jsParseInt mParam with
    | none => .error "M parameter must be between 4 and 64"
    | some m =>
      if m < 4 ∨ 64 < m then .error "M parameter must be between 4 and 64"
      else
        match jsParseInt efConstruction with
        | none => .error "ef_construction must be between 64 and 512"
        | some e =>
          if e < 64 ∨ 512 < e then
            .error "ef_construction must be between 64 and 512"
          else .ok (some m, some e)
  else .ok (none, none)

/-- `CreateIndexPage.handleSubmit` (CreateIndexPage.tsx lines 27-86) up to
the network call: non-blank name, positive `parseInt` dimension, the
hybrid sparse-dimension check, then the advanced-range checks; out-of-range
advanced values are rejected, never clamped. -/
def createIndexSubmit (name dimension spaceType precision : String)
    (isHybrid : Bool) (sparseDimension : String) (showAdvanced : Bool)
    (mParam efConstruction : String) : CreateOutcome :=
  if jsTrim name = "" then .error "Index name is required"
  else if dimension = "" then .error "Dimension must be a positive number"
  else
    match jsParseInt dimension with
    | none => .error "Dimension must be a positive number"
    | some dimValue =>
      if dimValue ≤ 0 then .error "Dimension must be a positive number"
      else
        match createValidateSparse isHybrid sparseDimension with
        | .error e => .error e
        | .ok sparse =>
          match createValidateAdvanced showAdvanced mParam efConstruction with
          | .error e => .error e
          | .ok (m, ef) =>
            .create (jsTrim name) dimValue spaceType precision sparse m ef

/-! ## API client adapter (src/api/client.ts) -/

/-- A value thrown by the underlying endee client: a JavaScript `Error`
with its message, or any non-`Error` value. -/
inductive Thrown where
  | err (message : String) : Thrown
  | nonError : Thrown
deriving DecidableEq

/-- `isUnauthorizedError` (client lines 347-353): an `Error` whose
lower-cased message contains the substring "401" or "invalid token". -/
def isUnauthorizedError (e : Thrown) : Bool :=
  match e with
  | .err message =>
    containsSub (jsToLower message).data ("401".data) ||
      containsSub (jsToLower message).data ("invalid token".data)
  | .nonError => false

/-- The message surfaced by `handleApiError`: the `Error` message, or
"Unknown error" for a non-`Error` value. -/
def errDisplayMessage (e : Thrown) : String :=
  match e with
  | .err m => m
  | .nonError => "Unknown error"

/-- The uniform result envelope returned by every adapter operation. -/
structure ApiResponse (α : Type) where
  success : Bool
  data : Option α := none
  error : Option String := none

/-- `handleApiError` (client lines 356-368): return `success = false` with
the display message, and invoke the registered `onUnauthorized` callback
exactly when the failure is classified as an authorization failure and a
callback is registered.  The second component records whether the callback
was invoked. -/
def handleApiError (α : Type) (onUnauthorizedRegistered : Bool) (e : Thrown) :
    ApiResponse α × Bool :=
  (⟨false, none, some (errDisplayMessage e)⟩,
    isUnauthorizedError e && onUnauthorizedRegistered)

/-- Behavior of the underlying `index.upsert(vectors)` call: it resolves
(possibly reporting some count, which the adapter never reads) or it
throws. -/
inductive UpsertOutcome where
  | ok (backendReported : Option Nat) : UpsertOutcome
  | throws (e : Thrown) : UpsertOutcome

/-- The success payload of `ApiClient.insertVectors`. -/
structure InsertResult where
  success : Bool
  inserted : Nat
deriving DecidableEq

/-- `ApiClient.insertVectors` (client lines 568-579): await the client
call once (the third component counts client invocations — the body has a
single awaited call and no retry), and on success report
`inserted = vectors.length`, ignoring whatever the backend resolved
with. -/
def apiInsertVectors (onUnauthorizedRegistered : Bool)
    (vectors : List VectorItem) (client : UpsertOutcome) :
    ApiResponse InsertResult × Bool × Nat :=
  match client with
  | .ok _ => (⟨true, some ⟨true, vectors.length⟩, none⟩, false, 1)
  | .throws e =>
    let r := handleApiError InsertResult onUnauthorizedRegistered e
    (r.1, r.2, 1)

/-- The success banner set by `VectorInsertPage.handleSubmit` after a
successful insert (SearchPage.tsx line 590): it always shows the length of
the parsed batch. -/
def insertSuccessBanner (isHybrid : Bool) (inputs : List VectorInput)
    (client : UpsertOutcome) : Option String :=
  match handleSubmitInsert isHybrid inputs with
  | .error _ => none
  | .request parsedVectors =>
    let resp := (apiInsertVectors true parsedVectors client).1
    if resp.success then
      some ("Successfully inserted " ++ toString parsedVectors.length ++
        " vector(s)")
    else none

/-! ## Auth context and raw fetch call sites -/

/-- The auth context's observable state: the stored token and whether the
re-authentication prompt is open. -/
structure AuthState where
  token : Option String
  showAuthModal : Bool
deriving DecidableEq

/-- `AuthContext.handleUnauthorized` (AuthContext lines 54-57): clear the
stored token and open the re-authentication prompt. -/
def handleUnauthorized (_s : AuthState) : AuthState :=
  { token := none, showAuthModal := true }

/-- The header produced by the spread idiom
`...(token && \x7b Authorization: token \x7d)`: present exactly when the
token is a non-empty (truthy) string. -/
def spreadAuth (token : Option String) : List (String × String) :=
  match token with
  | some t => if t = "" then [] else [("Authorization", t)]
  | none => []

/-- The `Content-Type: application/json` header literal. -/
def contentTypeJson : String × String := ("Content-Type", "application/json")

/-- Headers of the `GET /api/v1/backups` fetch in `BackupsPage.loadBackups`
(BackupsPage.tsx lines 125-131). -/
def loadBackupsHeaders (token : Option String) : List (String × String) :=
  contentTypeJson :: spreadAuth token

/-- Headers of the `GET /api/v1/backups/jobs` fetch in
`BackupsPage.loadJobs` (BackupsPage.tsx lines 79-85). -/
def loadJobsHeaders (token : Option String) : List (String × String) :=
  contentTypeJson :: spreadAuth token

/-- Headers of the restore fetch in `BackupsPage.handleRestoreBackup`
(BackupsPage.tsx lines 191-198). -/
def restoreBackupHeaders (token : Option String) : List (String × String) :=
  contentTypeJson :: spreadAuth token

/-- Headers of the delete fetch in `BackupsPage.handleDeleteBackup`
(BackupsPage.tsx lines 233-236). -/
def deleteBackupHeaders (token : Option String) : List (String × String) :=
  spreadAuth token

/-- Headers of the upload fetch in `UploadBackupModal.handleUploadBackup`. -/
def uploadBackupHeaders (token : Option String) : List (String × String) :=
  spreadAuth token

/-- Headers of the create-backup fetch in
`CreateBackupModal.handleCreateBackup` (CreateBackupModal.tsx lines
59-66). -/
def modalCreateBackupHeaders (token : Option String) : List (String × String) :=
  contentTypeJson :: spreadAuth token

/-- Headers of the inline create-backup fetch in
`IndexesPage.handleCreateBackup` (IndexesPage.tsx lines 86-90): only
`Content-Type` is sent, the token is never attached. -/
def inlineCreateBackupHeaders (_token : Option String) :
    List (String × String) :=
  [contentTypeJson]

/-- `response.ok` of the Fetch API: status in the 2xx range. -/
def fetchOk (status : Nat) : Bool := 200 ≤ status && status < 300

/-- Effect on the auth state of the response handling shared by the
backups-page call sites, the create-backup modal and the upload modal: on
a non-ok response with status 401, `handleUnauthorized()` runs
(BackupsPage.tsx lines 86-91, 132-137, 200-207, 238-245, and the identical
branches of the two modals). -/
def backupsAuthEffect (status : Nat) (s : AuthState) : AuthState :=
  if fetchOk status then s
  else if status = 401 then handleUnauthorized s
  else s

/-- Effect on the auth state of the response handling of the inline
create-backup fetch in `IndexesPage.handleCreateBackup` (IndexesPage.tsx
lines 92-95): a non-ok response only sets a local error message; the auth
state is never touched, whatever the status. -/
def inlineCreateBackupAuthEffect (_status : Nat) (s : AuthState) : AuthState :=
  s

/-! ## BackupsPage job polling -/

/-- Status of a backup job. -/
inductive JobStatus where
  | in_progress : JobStatus
  | completed : JobStatus
  | failed : JobStatus
deriving DecidableEq

/-- A backup job as displayed by the Jobs view. -/
structure BackupJob where
  job_id : String
  index_id : String
  backup_name : String
  status : JobStatus
  error : Option String := none
  started_at : Int
  completed_at : Option Int := none
deriving DecidableEq

/-- The predicate `j.status === 'in_progress'` of the polling effect. -/
def isInProgress (j : BackupJob) : Bool :=
  match j.status with
  | .in_progress => true
  | _ => false

/-- The polling `useEffect` of `BackupsPage` (BackupsPage.tsx lines
110-120): when some job in the current list is in progress it schedules a
repeating refresh with this interval (in milliseconds), and when none is
it returns without scheduling anything; the cleanup clears the interval
whenever the job list changes. -/
def pollIntervalMs : Nat := 5000

/-- The interval scheduled by the polling effect for a given job list:
`some` of the period when at least one job is in progress, `none`
otherwise. -/
def pollingEffect (jobs : List BackupJob) : Option Nat :=
  if jobs.any isInProgress then some pollIntervalMs else none

/-! ## Lexer lemmas

These support the universal dense-vector parsing claim: a comma-separated
list of JSON number literals parses to an array with one element per
token. -/

/-- A complete JSON number literal: the number lexer consumes exactly this
text. -/
def NumTok (t : List Char) : Prop := lexNumber t = some (t, [])

instance (t : List Char) : Decidable (NumTok t) := by
  unfold NumTok; infer_instance

theorem skipWs_cons {c : Char} (r : List Char) (h : isWsJson c = false) :
    skipWs (c :: r) = c :: r := by
  simp [skipWs, h]

theorem isDigit_facts {c : Char} (h : isDigit c = true) :
    isWsJson c = false ∧ c ≠ '[' ∧ c ≠ '{' ∧ c ≠ '"' ∧ c ≠ 't' ∧ c ≠ 'f' ∧
      c ≠ 'n' ∧ c ≠ '-' ∧ c ≠ ']' ∧ c ≠ ',' ∧ c ≠ '+' ∧ c ≠ '.' ∧ c ≠ 'e' ∧
      c ≠ 'E' := by
  refine ⟨?_, ?_, ?_, ?_, ?_, ?_, ?_, ?_, ?_, ?_, ?_, ?_, ?_, ?_⟩
  · have h2 := h
    simp only [isDigit, decide_eq_true_eq] at h2
    simp only [isWsJson, decide_eq_false_iff_not]
    omega
  all_goals (rintro rfl; exact absurd h (by decide))

theorem takeDigits_digits : ∀ l : List Char, ∀ c ∈ (takeDigits l).1,
    isDigit c = true := by
  intro l
  induction l with
  | nil => intro c hc; simp [takeDigits] at hc
  | cons a t ih =>
    intro c hc
    cases h : isDigit a with
    | false => rw [takeDigits, h] at hc; simp at hc
    | true =>
      rw [takeDigits, h] at hc
      simp only [if_true] at hc
      rcases List.mem_cons.mp hc with rfl | hc2
      · exact h
      · exact ih c hc2

theorem takeDigits_eq : ∀ l : List Char, (takeDigits l).1 ++ (takeDigits l).2 = l := by
  intro l
  induction l with
  | nil => rfl
  | cons a t ih =>
    cases h : isDigit a with
    | false => simp [takeDigits, h]
    | true => simp [takeDigits, h, ih]

theorem takeDigits_append (ds r : List Char) (hd : ∀ c ∈ ds, isDigit c = true)
    (hr : ∀ c, r.head? = some c → isDigit c = false) :
    takeDigits (ds ++ r) = (ds, r) := by
  induction ds with
  | nil =>
    cases r with
    | nil => rfl
    | cons c t =>
      have hc := hr c rfl
      simp [takeDigits, hc]
  | cons d ds ih =>
    have hdd : isDigit d = true := hd d (List.mem_cons_self d ds)
    have ih2 := ih (fun c hc => hd c (List.mem_cons_of_mem d hc))
    simp [takeDigits, hdd, ih2]


theorem lexInt_shape (l : List Char) (p : List Char × List Char)
    (h : lexInt l = some p) :
    ∃ d t, p.1 = d :: t ∧ isDigit d = true := by
  cases l with
  | nil => simp [lexInt] at h
  | cons c r =>
    simp only [lexInt] at h
    split_ifs at h with h0 hd
    · cases h; exact ⟨'0', [], rfl, by decide⟩
    · cases h; exact ⟨c, (takeDigits r).1, rfl, hd⟩

theorem lexInt_ext (l s' : List Char) (p : List Char × List Char)
    (h : lexInt l = some p)
    (hr : ∀ c, s'.head? = some c → isDigit c = false) :
    lexInt (p.1 ++ s') = some (p.1, s') := by
  cases l with
  | nil => simp [lexInt] at h
  | cons c r =>
    simp only [lexInt] at h
    split_ifs at h with h0 hd
    · cases h
      simp [lexInt]
    · cases h
      rw [List.cons_append]
      simp only [lexInt, if_neg h0, if_pos hd,
        takeDigits_append _ _ (takeDigits_digits r) hr]

theorem lexFrac_none (s' : List Char)
    (hr : ∀ c, s'.head? = some c → c ≠ '.') :
    lexFrac s' = some ([], s') := by
  cases s' with
  | nil => rfl
  | cons c t =>
    have hc := hr c rfl
    simp [lexFrac, hc]

theorem lexFrac_shape (l : List Char) (p : List Char × List Char)
    (h : lexFrac l = some p) :
    p.1 = [] ∨ ∃ t, p.1 = '.' :: t := by
  cases l with
  | nil => cases h; exact Or.inl rfl
  | cons c r =>
    simp only [lexFrac] at h
    split_ifs at h with h0 h1
    · cases h; exact Or.inr ⟨(takeDigits r).1, rfl⟩
    · cases h; exact Or.inl rfl

theorem lexFrac_ext (l s' : List Char) (p : List Char × List Char)
    (h : lexFrac l = some p)
    (hr : ∀ c, s'.head? = some c → isDigit c = false ∧ c ≠ '.') :
    lexFrac (p.1 ++ s') = some (p.1, s') := by
  cases l with
  | nil =>
    cases h
    exact lexFrac_none s' (fun c hc => (hr c hc).2)
  | cons c r =>
    simp only [lexFrac] at h
    split_ifs at h with h0 h1
    · cases h
      rw [List.cons_append]
      simp only [lexFrac, if_pos rfl,
        takeDigits_append _ _ (takeDigits_digits r) (fun c hc => (hr c hc).1)]
      simp [h1]
    · cases h
      exact lexFrac_none s' (fun c hc => (hr c hc).2)

theorem lexExp_none (s' : List Char)
    (hr : ∀ c, s'.head? = some c → c ≠ 'e' ∧ c ≠ 'E') :
    lexExp s' = some ([], s') := by
  match s' with
  | [] => rfl
  | [c] =>
    have hc := hr c rfl
    simp [lexExp, hc.1, hc.2]
  | c :: c2 :: r2 =>
    have hc := hr c rfl
    simp [lexExp, hc.1, hc.2]

theorem lexExp_shape (l : List Char) (p : List Char × List Char)
    (h : lexExp l = some p) :
    p.1 = [] ∨ ∃ c t, p.1 = c :: t ∧ (c = 'e' ∨ c = 'E') := by
  match l with
  | [] => cases h; exact Or.inl rfl
  | [c] =>
    simp only [lexExp] at h
    split_ifs at h with h0
    cases h
    exact Or.inl rfl
  | c :: c2 :: r2 =>
    simp only [lexExp] at h
    split_ifs at h with h0 h1 h2 h3
    · cases h; exact Or.inr ⟨c, c2 :: (takeDigits r2).1, rfl, h0⟩
    · cases h; exact Or.inr ⟨c, (takeDigits (c2 :: r2)).1, rfl, h0⟩
    · cases h; exact Or.inl rfl

theorem lexExp_ext (l s' : List Char) (p : List Char × List Char)
    (h : lexExp l = some p)
    (hr : ∀ c, s'.head? = some c → isDigit c = false ∧ c ≠ 'e' ∧ c ≠ 'E') :
    lexExp (p.1 ++ s') = some (p.1, s') := by
  match l with
  | [] =>
    cases h
    exact lexExp_none s' (fun c hc => (hr c hc).2)
  | [c] =>
    simp only [lexExp] at h
    split_ifs at h with h0
    cases h
    exact lexExp_none s' (fun c hc => (hr c hc).2)
  | c :: c2 :: r2 =>
    simp only [lexExp] at h
    split_ifs at h with h0 h1 h2 h3
    · cases h
      rw [List.cons_append, List.cons_append]
      rcases htd : (takeDigits r2).1 with _ | ⟨d, ds⟩
      · exact absurd htd h2
      · have hds : ∀ x ∈ (takeDigits r2).1, isDigit x = true :=
          takeDigits_digits r2
        rw [htd] at hds
        have hta : takeDigits ((d :: ds) ++ s') = (d :: ds, s') :=
          takeDigits_append _ _ hds (fun c hc => (hr c hc).1)
        simp only [lexExp, if_pos h0, if_pos h1, hta]
        simp
    · cases h
      rcases htd : (takeDigits (c2 :: r2)).1 with _ | ⟨d, ds⟩
      · exact absurd htd h3
      · have hds : ∀ x ∈ (takeDigits (c2 :: r2)).1, isDigit x = true :=
          takeDigits_digits (c2 :: r2)
        rw [htd] at hds
        have hd : isDigit d = true := hds d (List.mem_cons_self d ds)
        have hsign : ¬ (d = '+' ∨ d = '-') := by
          rintro (rfl | rfl)
          · exact absurd hd (by decide)
          · exact absurd hd (by decide)
        have hta : takeDigits ((d :: ds) ++ s') = (d :: ds, s') :=
          takeDigits_append _ _ hds (fun c hc => (hr c hc).1)
        rw [List.cons_append] at hta
        rw [List.cons_append, List.cons_append]
        simp only [lexExp, if_pos h0, if_neg hsign, hta]
        simp
    · cases h
      exact lexExp_none s' (fun c hc => (hr c hc).2)

theorem lexInt_eq (l : List Char) (p : List Char × List Char)
    (h : lexInt l = some p) : p.1 ++ p.2 = l := by
  cases l with
  | nil => simp [lexInt] at h
  | cons c r =>
    simp only [lexInt] at h
    split_ifs at h with h0 hd
    · cases h; rw [h0]; rfl
    · cases h
      simp [takeDigits_eq r]

theorem lexFrac_eq (l : List Char) (p : List Char × List Char)
    (h : lexFrac l = some p) : p.1 ++ p.2 = l := by
  cases l with
  | nil => cases h; rfl
  | cons c r =>
    simp only [lexFrac] at h
    split_ifs at h with h0 h1
    · cases h
      rw [h0]
      simp [takeDigits_eq r]
    · cases h; rfl

theorem lexExp_eq (l : List Char) (p : List Char × List Char)
    (h : lexExp l = some p) : p.1 ++ p.2 = l := by
  match l with
  | [] => cases h; rfl
  | [c] =>
    simp only [lexExp] at h
    split_ifs at h with h0
    cases h
    rfl
  | c :: c2 :: r2 =>
    simp only [lexExp] at h
    split_ifs at h with h0 h1 h2 h3
    · cases h
      simp [takeDigits_eq r2]
    · cases h
      simp [takeDigits_eq (c2 :: r2)]
    · cases h; rfl

theorem lexNumBody_shape (l : List Char) (p : List Char × List Char)
    (h : lexNumBody l = some p) :
    ∃ d t, p.1 = d :: t ∧ isDigit d = true := by
  rcases hInt : lexInt l with _ | ip
  · simp [lexNumBody, hInt] at h
  · rcases hFrac : lexFrac ip.2 with _ | fp
    · simp [lexNumBody, hInt, hFrac] at h
    · rcases hExp : lexExp fp.2 with _ | ep
      · simp [lexNumBody, hInt, hFrac, hExp] at h
      · simp only [lexNumBody, hInt, hFrac, hExp] at h
        cases h
        obtain ⟨d, t, hip1, hd⟩ := lexInt_shape _ _ hInt
        exact ⟨d, t ++ fp.1 ++ ep.1, by simp [hip1], hd⟩

theorem lexNumBody_ext (l s' : List Char) (p : List Char × List Char)
    (h : lexNumBody l = some p)
    (hr : ∀ c, s'.head? = some c →
      isDigit c = false ∧ c ≠ '.' ∧ c ≠ 'e' ∧ c ≠ 'E') :
    lexNumBody (p.1 ++ s') = some (p.1, s') := by
  rcases hInt : lexInt l with _ | ip
  · simp [lexNumBody, hInt] at h
  · rcases hFrac : lexFrac ip.2 with _ | fp
    · simp [lexNumBody, hInt, hFrac] at h
    · rcases hExp : lexExp fp.2 with _ | ep
      · simp [lexNumBody, hInt, hFrac, hExp] at h
      · simp only [lexNumBody, hInt, hFrac, hExp] at h
        cases h
        have hfs := lexFrac_shape _ _ hFrac
        have hes := lexExp_shape _ _ hExp
        have hstopExp : ∀ c, s'.head? = some c →
            isDigit c = false ∧ c ≠ 'e' ∧ c ≠ 'E' :=
          fun c hc => ⟨(hr c hc).1, (hr c hc).2.2.1, (hr c hc).2.2.2⟩
        have hstopFrac : ∀ c, (ep.1 ++ s').head? = some c →
            isDigit c = false ∧ c ≠ '.' := by
          intro c hc
          rcases hes with he | ⟨ce, te, hep, hce⟩
          · rw [he] at hc
            exact ⟨(hr c hc).1, (hr c hc).2.1⟩
          · rw [hep] at hc
            simp only [List.cons_append, List.head?_cons,
              Option.some.injEq] at hc
            subst hc
            rcases hce with rfl | rfl
            · exact ⟨by decide, by decide⟩
            · exact ⟨by decide, by decide⟩
        have hstopInt : ∀ c, (fp.1 ++ (ep.1 ++ s')).head? = some c →
            isDigit c = false := by
          intro c hc
          rcases hfs with hf | ⟨tf, hfp⟩
          · rw [hf] at hc
            exact (hstopFrac c hc).1
          · rw [hfp] at hc
            simp only [List.cons_append, List.head?_cons,
              Option.some.injEq] at hc
            subst hc
            decide
        have hIntExt := lexInt_ext _ (fp.1 ++ (ep.1 ++ s')) _ hInt hstopInt
        have hFracExt := lexFrac_ext _ (ep.1 ++ s') _ hFrac hstopFrac
        have hExpExt := lexExp_ext _ s' _ hExp hstopExp
        have hassoc : (ip.1 ++ fp.1 ++ ep.1) ++ s' =
            ip.1 ++ (fp.1 ++ (ep.1 ++ s')) := by
          simp [List.append_assoc]
        rw [hassoc]
        simp only [lexNumBody, hIntExt, hFracExt, hExpExt]

theorem lexNumber_ext (l s' : List Char) (p : List Char × List Char)
    (h : lexNumber l = some p)
    (hr : ∀ c, s'.head? = some c →
      isDigit c = false ∧ c ≠ '.' ∧ c ≠ 'e' ∧ c ≠ 'E') :
    lexNumber (p.1 ++ s') = some (p.1, s') := by
  cases l with
  | nil => simp [lexNumber] at h
  | cons c0 r0 =>
    by_cases hminus : c0 = '-'
    · subst hminus
      simp only [lexNumber, reduceIte] at h
      rcases hB : lexNumBody r0 with _ | q
      · rw [hB] at h; cases h
      · rw [hB] at h
        cases h
        have hext := lexNumBody_ext _ s' _ hB hr
        rw [List.cons_append]
        simp only [lexNumber, reduceIte, hext]
    · simp only [lexNumber, if_neg hminus] at h
      have hext := lexNumBody_ext _ s' _ h hr
      obtain ⟨d, t, hp1, hd⟩ := lexNumBody_shape _ _ h
      rw [hp1] at hext ⊢
      rw [List.cons_append] at hext ⊢
      obtain ⟨_, _, _, _, _, _, _, hnm, _⟩ := isDigit_facts hd
      simp only [lexNumber, if_neg hnm, hext]

theorem numTok_head (t : List Char) (h : NumTok t) :
    ∃ c t0, t = c :: t0 ∧ (c = '-' ∨ isDigit c = true) := by
  unfold NumTok at h
  cases t with
  | nil => simp [lexNumber] at h
  | cons c r =>
    by_cases hminus : c = '-'
    · exact ⟨c, r, rfl, Or.inl hminus⟩
    · simp only [lexNumber, if_neg hminus] at h
      obtain ⟨d, t', hp, hd⟩ := lexNumBody_shape _ _ h
      simp only at hp
      rw [List.cons.injEq] at hp
      exact ⟨c, r, rfl, Or.inr (hp.1 ▸ hd)⟩

theorem string_mk_data (s : String) : String.mk s.data = s := rfl

theorem string_data_append (a b : String) : (a ++ b).data = a.data ++ b.data :=
  rfl

theorem parseVal_num (t r : List Char) (ht : NumTok t)
    (hr : ∀ c, r.head? = some c →
      isDigit c = false ∧ c ≠ '.' ∧ c ≠ 'e' ∧ c ≠ 'E')
    (fuel : Nat) :
    parseVal (fuel + 1) (t ++ r) = some (.num (String.mk t), r) := by
  have hlex : lexNumber (t ++ r) = some (t, r) :=
    lexNumber_ext t r (t, []) ht hr
  obtain ⟨c, t0, rfl, hc⟩ := numTok_head t ht
  rw [List.cons_append] at hlex ⊢
  have hws : isWsJson c = false := by
    rcases hc with rfl | hd
    · decide
    · exact (isDigit_facts hd).1
  have hnot : c ≠ '[' ∧ c ≠ '{' ∧ c ≠ '"' ∧ c ≠ 't' ∧ c ≠ 'f' ∧ c ≠ 'n' := by
    rcases hc with rfl | hd
    · exact ⟨by decide, by decide, by decide, by decide, by decide, by decide⟩
    · obtain ⟨_, a1, a2, a3, a4, a5, a6, _⟩ := isDigit_facts hd
      exact ⟨a1, a2, a3, a4, a5, a6⟩
  simp only [parseVal, skipWs_cons _ hws, if_neg hnot.1, if_neg hnot.2.1,
    if_neg hnot.2.2.1, if_neg hnot.2.2.2.1, if_neg hnot.2.2.2.2.1,
    if_neg hnot.2.2.2.2.2, hlex]

/-- Rendering of the tail of a comma-separated token list inside the
wrapping brackets: every remaining token preceded by a comma, then the
closing bracket. -/
def tailRender : List (List Char) → List Char
  | [] => [']']
  | t :: ts => ',' :: (t ++ tailRender ts)

theorem tailRender_stop (ts : List (List Char)) :
    ∀ c, (tailRender ts).head? = some c →
      isDigit c = false ∧ c ≠ '.' ∧ c ≠ 'e' ∧ c ≠ 'E' := by
  cases ts with
  | nil =>
    intro c hc
    simp only [tailRender, List.head?_cons, Option.some.injEq] at hc
    subst hc
    exact ⟨by decide, by decide, by decide, by decide⟩
  | cons t ts =>
    intro c hc
    simp only [tailRender, List.head?_cons, Option.some.injEq] at hc
    subst hc
    exact ⟨by decide, by decide, by decide, by decide⟩

theorem parseArrTail_nums : ∀ (toks : List (List Char)) (fuel : Nat),
    (∀ t ∈ toks, NumTok t) → toks.length < fuel →
    parseArrTail fuel (tailRender toks) =
      some (toks.map (fun t => Json.num (String.mk t)), []) := by
  intro toks
  induction toks with
  | nil =>
    intro fuel _ hf
    cases fuel with
    | zero => omega
    | succ f => rfl
  | cons t ts ih =>
    intro fuel hnum hf
    cases fuel with
    | zero => omega
    | succ f =>
      cases f with
      | zero => simp only [List.length_cons] at hf; omega
      | succ f2 =>
        have h1 := parseVal_num t (tailRender ts)
          (hnum t (List.mem_cons_self t ts)) (tailRender_stop ts) f2
        have h2 := ih (f2 + 1)
          (fun x hx => hnum x (List.mem_cons_of_mem t hx))
          (by simp only [List.length_cons] at hf; omega)
        show (match parseVal (f2 + 1) (t ++ tailRender ts) with
          | none => none
          | some (v, r2) =>
            match parseArrTail (f2 + 1) r2 with
            | none => none
            | some (vs, r3) => some (v :: vs, r3)) =
          some ((t :: ts).map (fun x => Json.num (String.mk x)), [])
        simp only [h1, h2, List.map_cons]

theorem parseVal_wrap (t0 : List Char) (toks : List (List Char)) (f : Nat)
    (h0 : NumTok t0) (hts : ∀ x ∈ toks, NumTok x) (hf : toks.length < f + 1) :
    parseVal (f + 1 + 1) ('[' :: (t0 ++ tailRender toks)) =
      some (Json.arr (Json.num (String.mk t0) ::
        toks.map (fun x => Json.num (String.mk x))), []) := by
  have h1 := parseVal_num t0 (tailRender toks) h0 (tailRender_stop toks) f
  have h2 := parseArrTail_nums toks (f + 1) hts hf
  obtain ⟨c, t1, heq, hc⟩ := numTok_head t0 h0
  have hws : isWsJson c = false := by
    rcases hc with rfl | hd
    · decide
    · exact (isDigit_facts hd).1
  have hbr : ¬ (c = ']') := by
    rcases hc with rfl | hd
    · decide
    · exact (isDigit_facts hd).2.2.2.2.2.2.2.2.1
  rw [heq] at h1 ⊢
  rw [List.cons_append] at h1 ⊢
  show (match skipWs (c :: (t1 ++ tailRender toks)) with
    | [] => (none : Option (Json × List Char))
    | c2 :: r2 =>
      if c2 = ']' then some (Json.arr [], r2)
      else
        match parseVal (f + 1) (c2 :: r2) with
        | none => none
        | some (v, r3) =>
          match parseArrTail (f + 1) r3 with
          | none => none
          | some (vs, r4) => some (Json.arr (v :: vs), r4)) =
    some (Json.arr (Json.num (String.mk (c :: t1)) ::
      toks.map (fun x => Json.num (String.mk x))), [])
  rw [skipWs_cons _ hws]
  simp only [if_neg hbr, h1, h2]

/-- Comma-join of a token list: the "comma-separated" rendering of the
dense-vector claim. -/
def commaJoin : List String → String
  | [] => ""
  | [s] => s
  | s :: ss => s ++ "," ++ commaJoin ss

theorem commaJoin_data : ∀ (t : String) (ts : List String),
    (commaJoin (t :: ts)).data ++ [']'] =
      t.data ++ tailRender (ts.map String.data) := by
  intro t ts
  induction ts generalizing t with
  | nil => rfl
  | cons t2 ts ih =>
    rw [show commaJoin (t :: t2 :: ts) = t ++ "," ++ commaJoin (t2 :: ts)
      from rfl]
    rw [string_data_append, string_data_append]
    rw [List.map_cons]
    rw [show tailRender (t2.data :: ts.map String.data) =
      ',' :: (t2.data ++ tailRender (ts.map String.data)) from rfl]
    rw [← ih t2]
    simp [List.append_assoc]

theorem commaJoin_length_bound : ∀ toks : List String,
    toks.length ≤ (commaJoin toks).data.length + 1 := by
  intro toks
  induction toks with
  | nil => simp
  | cons s ss ih =>
    cases ss with
    | nil => simp [commaJoin]
    | cons s2 ss2 =>
      rw [show commaJoin (s :: s2 :: ss2) = s ++ "," ++ commaJoin (s2 :: ss2)
        from rfl]
      rw [string_data_append, string_data_append]
      simp only [List.length_cons, List.length_append]
      simp only [List.length_cons] at ih
      omega

/-- The universal dense-vector parsing fact: a non-empty comma-separated
list of JSON number literals, wrapped in brackets, parses to an array with
exactly one element per token. -/
theorem wrapParse_commaJoin (toks : List String) (hne : toks ≠ [])
    (hnum : ∀ t ∈ toks, NumTok t.data) :
    wrapParse (commaJoin toks) = some (toks.map (fun t => Json.num t)) := by
  cases toks with
  | nil => exact absurd rfl hne
  | cons t ts =>
    have hdata : ("[" ++ commaJoin (t :: ts) ++ "]").data =
        '[' :: (t.data ++ tailRender (ts.map String.data)) := by
      rw [string_data_append, string_data_append]
      rw [show ("[" : String).data = ['['] from rfl,
        show ("]" : String).data = [']'] from rfl]
      rw [List.append_assoc, commaJoin_data t ts]
      rfl
    have hlen : ("[" ++ commaJoin (t :: ts) ++ "]").data.length =
        (t.data ++ tailRender (ts.map String.data)).length + 1 := by
      rw [hdata]; rfl
    have hbound : (ts.map String.data).length <
        (t.data ++ tailRender (ts.map String.data)).length + 1 := by
      have hb := commaJoin_length_bound (t :: ts)
      have hj := commaJoin_data t ts
      have : (commaJoin (t :: ts)).data.length + 1 =
          t.data.length + (tailRender (ts.map String.data)).length := by
        have := congrArg List.length hj
        simp only [List.length_append, List.length_cons] at this
        simpa using this
      simp only [List.length_cons] at hb
      simp only [List.length_map, List.length_append]
      omega
    have hwrap := parseVal_wrap t.data (ts.map String.data)
      (t.data ++ tailRender (ts.map String.data)).length
      (hnum t (List.mem_cons_self t ts))
      (by
        intro x hx
        obtain ⟨y, hy, rfl⟩ := List.mem_map.mp hx
        exact hnum y (List.mem_cons_of_mem t hy))
      hbound
    rw [wrapParse, Json.parse, hlen, hdata, hwrap]
    simp only [Option.some.injEq]
    rw [string_mk_data]
    rw [List.map_map]
    rfl

/-! ## Support lemmas for the insert flow and the adapter -/

theorem mapExcept_length {α ε β : Type} (f : α → Except ε β) :
    ∀ (l : List α) (bs : List β), mapExcept f l = .ok bs → bs.length = l.length := by
  intro l
  induction l with
  | nil => intro bs h; cases h; rfl
  | cons a t ih =>
    intro bs h
    rcases hfa : f a with e | b
    · rw [mapExcept, hfa] at h; cases h
    · rw [mapExcept, hfa] at h
      rcases hmt : mapExcept f t with e | bt
      · rw [hmt] at h; cases h
      · rw [hmt] at h
        cases h
        simp [ih bt hmt]

theorem mapExcept_error_mem {α ε β : Type} (f : α → Except ε β) :
    ∀ (l : List α) (e : ε), mapExcept f l = .error e → ∃ a ∈ l, f a = .error e := by
  intro l
  induction l with
  | nil => intro e h; cases h
  | cons a t ih =>
    intro e h
    rcases hfa : f a with e2 | b
    · rw [mapExcept, hfa] at h
      cases h
      exact ⟨a, List.mem_cons_self a t, hfa⟩
    · rw [mapExcept, hfa] at h
      rcases hmt : mapExcept f t with e2 | bt
      · rw [hmt] at h
        cases h
        obtain ⟨x, hx, hfx⟩ := ih _ hmt
        exact ⟨x, List.mem_cons_of_mem a hx, hfx⟩
      · rw [hmt] at h; cases h

theorem mapExcept_append_error {α ε β : Type} (f : α → Except ε β) :
    ∀ (l1 l2 : List α) (a : α) (e : ε),
      (∀ x ∈ l1, ∃ b, f x = .ok b) → f a = .error e →
      mapExcept f (l1 ++ a :: l2) = .error e := by
  intro l1
  induction l1 with
  | nil =>
    intro l2 a e _ hfa
    rw [List.nil_append, mapExcept, hfa]
  | cons x t ih =>
    intro l2 a e hok hfa
    obtain ⟨b, hb⟩ := hok x (List.mem_cons_self x t)
    rw [List.cons_append, mapExcept, hb,
      ih l2 a e (fun y hy => hok y (List.mem_cons_of_mem x hy)) hfa]

theorem parseVector_error_shape (hy : Bool) (input : VectorInput) (e : ErrMsg)
    (h : parseVector hy input = .error e) :
    ∃ inner, e = .invalidVectorData inner := by
  rw [parseVector] at h
  rcases hb : parseVectorBody hy input with e2 | v
  · rw [hb] at h
    cases h
    exact ⟨e2, rfl⟩
  · rw [hb] at h; cases h

theorem matchesAt_iff : ∀ sub l : List Char, matchesAt sub l = true ↔ sub <+: l := by
  intro sub
  induction sub with
  | nil =>
    intro l
    simp [matchesAt, List.nil_prefix]
  | cons a as ih =>
    intro l
    cases l with
    | nil =>
      simp [matchesAt]
    | cons b bs =>
      rw [matchesAt, Bool.and_eq_true, beq_iff_eq, ih bs,
        List.cons_prefix_cons]

theorem containsSub_iff : ∀ l sub : List Char,
    containsSub l sub = true ↔ sub <:+: l := by
  intro l
  induction l with
  | nil =>
    intro sub
    rw [containsSub, List.isEmpty_iff, List.infix_nil]
  | cons a t ih =>
    intro sub
    rw [containsSub, Bool.or_eq_true, matchesAt_iff, ih,
      List.infix_cons_iff]

theorem isInProgress_iff (j : BackupJob) :
    isInProgress j = true ↔ j.status = .in_progress := by
  rw [isInProgress]
  cases j.status <;> simp

/-! ## Claim-level helper lemmas -/

theorem handleSearch_k_invalid (hy : Bool) (v si sv k ef fl : String)
    (iv : Bool) (arr : List Json) (hv : wrapParse v = some arr)
    (hne : ¬ (arr.length = 0))
    (hk : jsParseInt k = none ∨ ∃ x, jsParseInt k = some x ∧ x ≤ 0) :
    handleSearch hy v si sv k ef fl iv =
      .error (.lit "K must be a positive number") := by
  simp only [handleSearch, hv]
  rw [if_neg hne]
  rcases hk with hnone | ⟨x, hx, hxle⟩
  · simp only [hnone]
  · simp only [hx, if_pos hxle]

theorem sparseStep_not_hybrid (si sv : String) (req : SearchRequest) :
    sparseStep false si sv req = .request req := rfl

theorem handleSearch_to_sparse (si sv : String) :
    handleSearch true "0.1" si sv "5" "" "" false =
      sparseStep true si sv
        { vector := [Json.num "0.1"], k := 5, include_vectors := false } :=
  rfl

/-! ## Claim theorems -/

/-- C9: on the backups page the polling effect schedules a 5000 ms
job-status refresh interval if and only if the current job list contains
at least one job with status in_progress; when no job is in progress it
schedules nothing, so no further refresh occurs until a new in-progress
job appears. -/
theorem c9_polling_iff (jobs : List BackupJob) :
    (pollingEffect jobs = some 5000 ↔ ∃ j ∈ jobs, j.status = .in_progress) ∧
    (pollingEffect jobs = none ↔ ∀ j ∈ jobs, j.status ≠ .in_progress) := by
  have hany : jobs.any isInProgress = true ↔
      ∃ j ∈ jobs, j.status = .in_progress := by
    rw [List.any_eq_true]
    constructor
    · rintro ⟨j, hj, hjs⟩
      exact ⟨j, hj, (isInProgress_iff j).mp hjs⟩
    · rintro ⟨j, hj, hjs⟩
      exact ⟨j, hj, (isInProgress_iff j).mpr hjs⟩
  constructor
  · rw [pollingEffect]
    constructor
    · intro h
      by_cases hp : jobs.any isInProgress = true
      · exact hany.mp hp
      · rw [if_neg hp] at h
        cases h
    · intro hex
      rw [if_pos (hany.mpr hex)]
      rfl
  · rw [pollingEffect]
    constructor
    · intro h hj
      by_cases hp : jobs.any isInProgress = true
      · rw [if_pos hp] at h
        cases h
      · intro hmem hst
        exact hp (hany.mpr ⟨hj, hmem, hst⟩)
    · intro hall
      rw [if_neg]
      intro hp
      obtain ⟨j, hj, hjs⟩ := hany.mp hp
      exact hall j hj hjs

/-- C9 witness: a single in-progress job schedules the refresh; the same
job completed schedules nothing. -/
theorem c9_polling_iff_witness :
    pollingEffect [⟨"j1", "i1", "b1", .in_progress, none, 0, none⟩] =
      some 5000 ∧
    pollingEffect [⟨"j1", "i1", "b1", .completed, none, 0, some 9⟩] = none :=
  ⟨(c9_polling_iff _).1.mpr ⟨_, List.mem_cons_self _ _, rfl⟩,
   (c9_polling_iff _).2.mpr (by decide)⟩

/-- C8: the adapter classifies a thrown failure as an authorization
failure exactly when it is an Error whose lower-cased message contains
"401" or "invalid token" as a substring; the registered callback is
invoked exactly when the failure is so classified and a callback is
registered; the registered callback clears the token and opens the
re-authentication prompt; every failure yields success = false carrying
the display message ("Unknown error" for a non-Error value); and the
adapter invokes the underlying client exactly once, never retrying. -/
theorem c8_adapter_classification :
    (∀ m : String, isUnauthorizedError (.err m) = true ↔
      ("401".data <:+: (jsToLower m).data ∨
        "invalid token".data <:+: (jsToLower m).data)) ∧
    (∀ (reg : Bool) (e : Thrown),
      ((handleApiError Unit reg e).2 = true ↔
        (isUnauthorizedError e = true ∧ reg = true)) ∧
      (handleApiError Unit reg e).1.success = false ∧
      (handleApiError Unit reg e).1.data = none ∧
      (handleApiError Unit reg e).1.error = some (errDisplayMessage e)) ∧
    (∀ m : String, errDisplayMessage (.err m) = m) ∧
    errDisplayMessage .nonError = "Unknown error" ∧
    isUnauthorizedError .nonError = false ∧
    (∀ s, handleUnauthorized s = ⟨none, true⟩) ∧
    (∀ (reg : Bool) (vectors : List VectorItem) (client : UpsertOutcome),
      (apiInsertVectors reg vectors client).2.2 = 1) := by
  refine ⟨?_, ?_, fun m => rfl, rfl, rfl, fun s => rfl, ?_⟩
  · intro m
    rw [isUnauthorizedError, Bool.or_eq_true, containsSub_iff, containsSub_iff]
  · intro reg e
    refine ⟨?_, rfl, rfl, rfl⟩
    simp [handleApiError, Bool.and_eq_true]
  · intro reg vectors client
    cases client <;> rfl

/-- C8 witness: concrete classifications and invocations. -/
theorem c8_adapter_classification_witness :
    isUnauthorizedError (.err "HTTP 401 Unauthorized") = true ∧
    (handleApiError Unit true (.err "Error: Invalid Token")).2 = true ∧
    (handleApiError Unit true (.err "network down")).2 = false ∧
    (apiInsertVectors true [] (.ok (some 7))).2.2 = 1 := by
  refine ⟨?_, ?_, ?_, c8_adapter_classification.2.2.2.2.2.2 true [] (.ok (some 7))⟩
  · exact (c8_adapter_classification.1 "HTTP 401 Unauthorized").mpr
      (Or.inl (by decide))
  · exact ((c8_adapter_classification.2.1 true
      (.err "Error: Invalid Token")).1).mpr ⟨by decide, rfl⟩
  · have h := (c8_adapter_classification.2.1 true (.err "network down")).1
    by_cases hb : (handleApiError Unit true (.err "network down")).2 = true
    · obtain ⟨hu, _⟩ := h.mp hb
      exact absurd hu (by decide)
    · simpa using hb

/-- C10: on a successful insert the adapter reports
inserted = vectors.length no matter what the backend resolved with, and
the success banner always shows the parsed-batch length. -/
theorem c10_inserted_count :
    (∀ (reg : Bool) (vectors : List VectorItem) (b1 b2 : Option Nat),
      (apiInsertVectors reg vectors (.ok b1)).1 =
        ⟨true, some ⟨true, vectors.length⟩, none⟩ ∧
      (apiInsertVectors reg vectors (.ok b1)).1 =
        (apiInsertVectors reg vectors (.ok b2)).1) ∧
    (∀ (hy : Bool) (inputs : List VectorInput) (parsed : List VectorItem)
        (b : Option Nat),
      handleSubmitInsert hy inputs = .request parsed →
      insertSuccessBanner hy inputs (.ok b) =
        some ("Successfully inserted " ++ toString parsed.length ++
          " vector(s)")) := by
  refine ⟨fun reg vectors b1 b2 => ⟨rfl, rfl⟩, ?_⟩
  intro hy inputs parsed b hreq
  rw [insertSuccessBanner, hreq]
  rfl

/-- C10 witness: a one-row batch reports count 1 whatever the backend
said. -/
theorem c10_inserted_count_witness :
    insertSuccessBanner false [⟨"a", "1", "", "", "", ""⟩] (.ok (some 42)) =
      some ("Successfully inserted " ++
        toString ([VectorItem.mk "a" [Json.num "1"] none none none none].length)
        ++ " vector(s)") :=
  c10_inserted_count.2 false _ _ (some 42) rfl

/-- C1 counterexample: with the token "tok" stored, the inline
create-backup fetch of the indexes page sends only the Content-Type
header — no Authorization header — and a 401 response leaves the auth
state untouched instead of clearing the token and opening the prompt. -/
theorem c1_counterexample :
    inlineCreateBackupHeaders (some "tok") =
      [("Content-Type", "application/json")] ∧
    inlineCreateBackupAuthEffect 401 ⟨some "tok", false⟩ =
      ⟨some "tok", false⟩ ∧
    (⟨some "tok", false⟩ : AuthState) ≠ (⟨none, true⟩ : AuthState) :=
  ⟨rfl, rfl, by decide⟩

/-- C1 (amended): at the backups-page call sites (backup list, job list,
restore, delete), the create-backup modal and the upload modal, a truthy
stored token is attached as an Authorization header and a 401 response
clears the token and opens the re-authentication prompt; the inline
create-backup fetch on the indexes page, by contrast, never attaches the
token and its response handling never touches the auth state. -/
theorem c1_amended (t : String) (ht : ¬ (t = "")) :
    (loadBackupsHeaders (some t) = [contentTypeJson, ("Authorization", t)] ∧
     loadJobsHeaders (some t) = [contentTypeJson, ("Authorization", t)] ∧
     restoreBackupHeaders (some t) = [contentTypeJson, ("Authorization", t)] ∧
     deleteBackupHeaders (some t) = [("Authorization", t)] ∧
     uploadBackupHeaders (some t) = [("Authorization", t)] ∧
     modalCreateBackupHeaders (some t) =
       [contentTypeJson, ("Authorization", t)]) ∧
    (∀ s : AuthState, backupsAuthEffect 401 s = ⟨none, true⟩) ∧
    (∀ tok : Option String, inlineCreateBackupHeaders tok = [contentTypeJson]) ∧
    (∀ (status : Nat) (s : AuthState),
      inlineCreateBackupAuthEffect status s = s) := by
  refine ⟨⟨?_, ?_, ?_, ?_, ?_, ?_⟩, fun s => rfl, fun tok => rfl,
    fun status s => rfl⟩
  all_goals
    simp [loadBackupsHeaders, loadJobsHeaders, restoreBackupHeaders,
      deleteBackupHeaders, uploadBackupHeaders, modalCreateBackupHeaders,
      spreadAuth, ht]

/-- C1 witness: the amended statement at the token "tok". -/
theorem c1_amended_witness :
    loadBackupsHeaders (some "tok") =
      [contentTypeJson, ("Authorization", "tok")] ∧
    backupsAuthEffect 401 ⟨some "tok", false⟩ = ⟨none, true⟩ :=
  ⟨(c1_amended "tok" (by decide)).1.1,
   (c1_amended "tok" (by decide)).2.1 ⟨some "tok", false⟩⟩

/-- C6: in the search flow, k must parse (via parseInt) to a strictly
positive value or the submission fails before any network call with
"K must be a positive number"; a non-blank ef field that does not parse to
a positive integer is silently omitted from the request rather than
causing a failure; in particular k in 0, -1, abc, empty fails and k in 1,
5, 100 proceeds. -/
theorem c6_k_ef_validation :
    (∀ k ef : String,
      (jsParseInt k = none ∨ ∃ x, jsParseInt k = some x ∧ x ≤ 0) →
      handleSearch false "0.1" "" "" k ef "" false =
        .error (.lit "K must be a positive number")) ∧
    (∀ (k ef : String) (kv : Int),
      jsParseInt k = some kv → 0 < kv → jsTrim ef ≠ "" →
      (jsParseInt ef = none ∨ ∃ v, jsParseInt ef = some v ∧ v ≤ 0) →
      handleSearch false "0.1" "" "" k ef "" false =
        .request { vector := [Json.num "0.1"], k := kv,
                   include_vectors := false }) ∧
    handleSearch false "0.1" "" "" "0" "" "" false =
      .error (.lit "K must be a positive number") ∧
    handleSearch false "0.1" "" "" "-1" "" "" false =
      .error (.lit "K must be a positive number") ∧
    handleSearch false "0.1" "" "" "abc" "" "" false =
      .error (.lit "K must be a positive number") ∧
    handleSearch false "0.1" "" "" "" "" "" false =
      .error (.lit "K must be a positive number") ∧
    handleSearch false "0.1" "" "" "1" "" "" false =
      .request { vector := [Json.num "0.1"], k := 1,
                 include_vectors := false } ∧
    handleSearch false "0.1" "" "" "5" "" "" false =
      .request { vector := [Json.num "0.1"], k := 5,
                 include_vectors := false } ∧
    handleSearch false "0.1" "" "" "100" "" "" false =
      .request { vector := [Json.num "0.1"], k := 100,
                 include_vectors := false } := by
  refine ⟨?_, ?_, rfl, rfl, rfl, rfl, rfl, rfl, rfl⟩
  · intro k ef hk
    exact handleSearch_k_invalid false "0.1" "" "" k ef "" false
      [Json.num "0.1"] rfl (by decide) hk
  · intro k ef kv hk hkpos htrim hbadef
    simp only [handleSearch,
      show wrapParse "0.1" = some [Json.num "0.1"] from rfl]
    rw [if_neg (by decide : ¬ ([Json.num "0.1"].length = 0))]
    simp only [hk]
    rw [if_neg (by omega : ¬ (kv ≤ 0))]
    rw [if_pos htrim]
    rcases hbadef with hnone | ⟨v, hv, hvle⟩
    · simp only [hnone]
      rfl
    · simp only [hv]
      rw [if_neg (by omega : ¬ (0 < v))]
      rfl

/-- C6 witness: the universal parts applied at k = "7" with a bad ef. -/
theorem c6_k_ef_validation_witness :
    handleSearch false "0.1" "" "" "xyz" "" "" false =
      .error (.lit "K must be a positive number") ∧
    handleSearch false "0.1" "" "" "7" "abc" "" false =
      .request { vector := [Json.num "0.1"], k := 7,
                 include_vectors := false } :=
  ⟨c6_k_ef_validation.1 "xyz" "" (Or.inl rfl),
   c6_k_ef_validation.2.1 "7" "abc" 7 rfl (by omega) (by decide)
     (Or.inl rfl)⟩

theorem createIndexSubmit_idx768 (st pr : String) (hy : Bool) (sp : String)
    (adv : Bool) (mp efc : String) :
    createIndexSubmit "idx" "768" st pr hy sp adv mp efc =
      (match createValidateSparse hy sp with
       | .error e => .error e
       | .ok sparse =>
         match createValidateAdvanced adv mp efc with
         | .error e => .error e
         | .ok (m, ef) => .create "idx" 768 st pr sparse m ef) := rfl

theorem createValidateSparse_bad (sp : String)
    (h : sp = "" ∨ jsParseInt sp = none ∨ ∃ s, jsParseInt sp = some s ∧ s ≤ 0) :
    createValidateSparse true sp =
      .error "Sparse dimension must be a positive number for hybrid indexes" := by
  rw [createValidateSparse, if_pos rfl]
  by_cases hsp : sp = ""
  · rw [if_pos hsp]
  · rw [if_neg hsp]
    rcases h with rfl | hnone | ⟨s, hs, hsle⟩
    · exact absurd rfl hsp
    · simp only [hnone]
    · simp only [hs, if_pos hsle]

theorem createValidateAdvanced_badM (mp efc : String)
    (h : jsParseInt mp = none ∨ ∃ m, jsParseInt mp = some m ∧ (m < 4 ∨ 64 < m)) :
    createValidateAdvanced true mp efc =
      .error "M parameter must be between 4 and 64" := by
  rw [createValidateAdvanced, if_pos rfl]
  rcases h with hnone | ⟨m, hm, hrange⟩
  · simp only [hnone]
  · simp only [hm, if_pos hrange]

theorem createValidateAdvanced_badEf (efc : String)
    (h : jsParseInt efc = none ∨
      ∃ x, jsParseInt efc = some x ∧ (x < 64 ∨ 512 < x)) :
    createValidateAdvanced true "16" efc =
      .error "ef_construction must be between 64 and 512" := by
  show (match jsParseInt efc with
    | none => (Except.error "ef_construction must be between 64 and 512" :
        Except String (Option Int × Option Int))
    | some x =>
      if x < 64 ∨ 512 < x then
        .error "ef_construction must be between 64 and 512"
      else .ok (some 16, some x)) =
    .error "ef_construction must be between 64 and 512"
  rcases h with hnone | ⟨x, hx, hrange⟩
  · simp only [hnone]
  · simp only [hx, if_pos hrange]

/-- C7: create-index validation: a blank name, a dimension that parseInt
does not read as a strictly positive integer, or (for a hybrid index) a
sparse dimension that parseInt does not read as a strictly positive
integer each fail with no network call; with the advanced section shown,
an M outside 4..64 or an ef_construction outside 64..512 is rejected
before submission — never clamped; M = "3" fails with the
"between 4 and 64" message while M = "16", efConstruction = "128"
proceeds to the create call. -/
theorem c7_create_index_validation :
    (∀ (name dimension st pr : String) (hy : Bool) (sp : String)
       (adv : Bool) (mp efc : String),
      jsTrim name = "" →
      createIndexSubmit name dimension st pr hy sp adv mp efc =
        .error "Index name is required") ∧
    (∀ (dimension st pr : String) (hy : Bool) (sp : String) (adv : Bool)
       (mp efc : String),
      (dimension = "" ∨ jsParseInt dimension = none ∨
        ∃ d, jsParseInt dimension = some d ∧ d ≤ 0) →
      createIndexSubmit "idx" dimension st pr hy sp adv mp efc =
        .error "Dimension must be a positive number") ∧
    (∀ (st pr sp : String) (adv : Bool) (mp efc : String),
      (sp = "" ∨ jsParseInt sp = none ∨ ∃ s, jsParseInt sp = some s ∧ s ≤ 0) →
      createIndexSubmit "idx" "768" st pr true sp adv mp efc =
        .error "Sparse dimension must be a positive number for hybrid indexes") ∧
    (∀ (st pr mp efc : String),
      (jsParseInt mp = none ∨
        ∃ m, jsParseInt mp = some m ∧ (m < 4 ∨ 64 < m)) →
      createIndexSubmit "idx" "768" st pr false "" true mp efc =
        .error "M parameter must be between 4 and 64") ∧
    (∀ (st pr efc : String),
      (jsParseInt efc = none ∨
        ∃ x, jsParseInt efc = some x ∧ (x < 64 ∨ 512 < x)) →
      createIndexSubmit "idx" "768" st pr false "" true "16" efc =
        .error "ef_construction must be between 64 and 512") ∧
    createIndexSubmit "idx" "768" "cosine" "float16" false "" true "3" "128" =
      .error "M parameter must be between 4 and 64" ∧
    createIndexSubmit "idx" "768" "cosine" "float16" false "" true "16" "128" =
      .create "idx" 768 "cosine" "float16" none (some 16) (some 128) := by
  refine ⟨?_, ?_, ?_, ?_, ?_, rfl, rfl⟩
  · intro name dimension st pr hy sp adv mp efc hname
    rw [createIndexSubmit, if_pos hname]
  · intro dimension st pr hy sp adv mp efc hbad
    rw [createIndexSubmit, if_neg (by decide : ¬ (jsTrim "idx" = ""))]
    by_cases hde : dimension = ""
    · rw [if_pos hde]
    · rw [if_neg hde]
      rcases hbad with rfl | hnone | ⟨d, hd, hdle⟩
      · exact absurd rfl hde
      · simp only [hnone]
      · simp only [hd, if_pos hdle]
  · intro st pr sp adv mp efc hbad
    rw [createIndexSubmit_idx768, createValidateSparse_bad sp hbad]
  · intro st pr mp efc hbad
    rw [createIndexSubmit_idx768, createValidateAdvanced_badM mp efc hbad]
    rfl
  · intro st pr efc hbad
    rw [createIndexSubmit_idx768, createValidateAdvanced_badEf efc hbad]
    rfl

/-- C7 witness: the universal parts at concrete inputs. -/
theorem c7_create_index_validation_witness :
    createIndexSubmit "  " "768" "cosine" "float16" false "" false "16" "128" =
      .error "Index name is required" ∧
    createIndexSubmit "idx" "0" "cosine" "float16" false "" false "16" "128" =
      .error "Dimension must be a positive number" ∧
    createIndexSubmit "idx" "768" "cosine" "float16" true "" false "16" "128" =
      .error "Sparse dimension must be a positive number for hybrid indexes" ∧
    createIndexSubmit "idx" "768" "cosine" "float16" false "" true "65" "128" =
      .error "M parameter must be between 4 and 64" ∧
    createIndexSubmit "idx" "768" "cosine" "float16" false "" true "16" "513" =
      .error "ef_construction must be between 64 and 512" :=
  ⟨c7_create_index_validation.1 "  " "768" "cosine" "float16" false "" false
     "16" "128" rfl,
   c7_create_index_validation.2.1 "0" "cosine" "float16" false "" false
     "16" "128" (Or.inr (Or.inr ⟨0, rfl, by omega⟩)),
   c7_create_index_validation.2.2.1 "cosine" "float16" "" false "16" "128"
     (Or.inl rfl),
   c7_create_index_validation.2.2.2.1 "cosine" "float16" "65" "128"
     (Or.inr ⟨65, rfl, by omega⟩),
   c7_create_index_validation.2.2.2.2.1 "cosine" "float16" "513"
     (Or.inr ⟨513, rfl, by omega⟩)⟩

/-- C4 counterexample: on a hybrid search with sparse indices "abc" and
blank sparse values, the submission does fail, but with the JSON parser's
engine-defined SyntaxError message — not with "Both sparse indices and
sparse values must be provided together" as claimed. -/
theorem c4_counterexample :
    handleSearch true "0.1" "abc" "" "5" "" "" false = .error .jsonErr ∧
    ErrMsg.jsonErr ≠
      ErrMsg.lit "Both sparse indices and sparse values must be provided together" :=
  ⟨rfl, by decide⟩

/-- C4 (amended): on a hybrid search submission, for every pair of sparse
texts: both blank attaches no sparse fields and proceeds; exactly one
non-blank whose bracket-wrapped text parses fails with the
"provided together" message; both non-blank and parsed with different
lengths fails with the "same length" message; and a non-blank side whose
bracket-wrapped text is not valid JSON aborts with the JSON parser's own
error instead.  No failure case reaches the network. -/
theorem c4_amended (si sv : String) :
    (jsTrim si = "" → jsTrim sv = "" →
      handleSearch true "0.1" si sv "5" "" "" false =
        .request { vector := [Json.num "0.1"], k := 5,
                   include_vectors := false }) ∧
    (∀ a, jsTrim si ≠ "" → wrapParse si = some a → jsTrim sv = "" →
      handleSearch true "0.1" si sv "5" "" "" false =
        .error (.lit "Both sparse indices and sparse values must be provided together")) ∧
    (∀ b, jsTrim si = "" → jsTrim sv ≠ "" → wrapParse sv = some b →
      handleSearch true "0.1" si sv "5" "" "" false =
        .error (.lit "Both sparse indices and sparse values must be provided together")) ∧
    (∀ a b, jsTrim si ≠ "" → jsTrim sv ≠ "" → wrapParse si = some a →
      wrapParse sv = some b → a.length ≠ b.length →
      handleSearch true "0.1" si sv "5" "" "" false =
        .error (.lit "Sparse indices and values must have the same length")) ∧
    (jsTrim si ≠ "" → wrapParse si = none →
      handleSearch true "0.1" si sv "5" "" "" false = .error .jsonErr) ∧
    (jsTrim si = "" → jsTrim sv ≠ "" → wrapParse sv = none →
      handleSearch true "0.1" si sv "5" "" "" false = .error .jsonErr) := by
  refine ⟨?_, ?_, ?_, ?_, ?_, ?_⟩
  · intro h1 h2
    rw [handleSearch_to_sparse, sparseStep,
      if_neg (by decide : ¬ ((!true) = true)),
      if_neg (fun hh => hh h1), if_neg (fun hh => hh h2)]
  · intro a h1 hpa h2
    rw [handleSearch_to_sparse, sparseStep,
      if_neg (by decide : ¬ ((!true) = true)),
      if_pos h1, if_neg (fun hh => hh h2)]
    simp only [hpa, Option.map_some']
  · intro b h1 h2 hpb
    rw [handleSearch_to_sparse, sparseStep,
      if_neg (by decide : ¬ ((!true) = true)),
      if_neg (fun hh => hh h1), if_pos h2]
    simp only [hpb, Option.map_some']
  · intro a b h1 h2 hpa hpb hlen
    rw [handleSearch_to_sparse, sparseStep,
      if_neg (by decide : ¬ ((!true) = true)),
      if_pos h1, if_pos h2]
    simp only [hpa, hpb, Option.map_some', if_pos hlen]
  · intro h1 hpa
    rw [handleSearch_to_sparse, sparseStep,
      if_neg (by decide : ¬ ((!true) = true)),
      if_pos h1]
    simp only [hpa, Option.map_none']
  · intro h1 h2 hpb
    rw [handleSearch_to_sparse, sparseStep,
      if_neg (by decide : ¬ ((!true) = true)),
      if_neg (fun hh => hh h1), if_pos h2]
    simp only [hpb, Option.map_none']

/-- C4 witness: the amended statement at concrete sparse inputs. -/
theorem c4_amended_witness :
    handleSearch true "0.1" "" "" "5" "" "" false =
      .request { vector := [Json.num "0.1"], k := 5,
                 include_vectors := false } ∧
    handleSearch true "0.1" "1,2" "" "5" "" "" false =
      .error (.lit "Both sparse indices and sparse values must be provided together") ∧
    handleSearch true "0.1" "1,2" "3" "5" "" "" false =
      .error (.lit "Sparse indices and values must have the same length") :=
  ⟨(c4_amended "" "").1 rfl rfl,
   (c4_amended "1,2" "").2.1 [Json.num "1", Json.num "2"] (by decide) rfl rfl,
   (c4_amended "1,2" "3").2.2.2.1 [Json.num "1", Json.num "2"] [Json.num "3"]
     (by decide) (by decide) rfl rfl (by decide)⟩

/-- C5 counterexample: a dense-vector text whose bracket-wrapped form is
not valid JSON aborts the search with the JSON parser's engine-defined
SyntaxError message, not with "Vector must be a non-empty array of
numbers" as claimed. -/
theorem c5_counterexample :
    handleSearch false "abc" "" "" "5" "" "" false = .error .jsonErr ∧
    ErrMsg.jsonErr ≠ ErrMsg.lit "Vector must be a non-empty array of numbers" :=
  ⟨rfl, by decide⟩

/-- C5 (amended): dense-vector parsing wraps the raw text in brackets and
parses it as JSON; every non-empty comma-separated list of JSON number
literals parses to an array with exactly one element per token (hence of
length at least 1); the empty string parses to the empty array, and an
empty-array parse fails with "Vector must be a non-empty array of
numbers" (in the insert flow wrapped as "Invalid vector data: ..."),
while text whose wrapped form is not valid JSON aborts with the JSON
parser's own error message instead. -/
theorem c5_amended :
    (∀ toks : List String, toks ≠ [] → (∀ t ∈ toks, NumTok t.data) →
      ∃ elems, wrapParse (commaJoin toks) = some elems ∧
        elems.length = toks.length ∧ 1 ≤ elems.length) ∧
    wrapParse "" = some [] ∧
    (∀ (hy : Bool) (v si sv k ef fl : String) (iv : Bool),
      wrapParse v = some [] →
      handleSearch hy v si sv k ef fl iv =
        .error (.lit "Vector must be a non-empty array of numbers")) ∧
    (∀ (hy : Bool) (v si sv k ef fl : String) (iv : Bool),
      wrapParse v = none →
      handleSearch hy v si sv k ef fl iv = .error .jsonErr) ∧
    (∀ (hy : Bool) (input : VectorInput),
      jsTrim input.id ≠ "" → wrapParse input.vector = some [] →
      parseVector hy input =
        .error (.invalidVectorData
          (.lit "Vector must be a non-empty array of numbers"))) ∧
    (∀ (hy : Bool) (input : VectorInput),
      jsTrim input.id ≠ "" → wrapParse input.vector = none →
      parseVector hy input = .error (.invalidVectorData .jsonErr)) := by
  refine ⟨?_, rfl, ?_, ?_, ?_, ?_⟩
  · intro toks hne hnum
    refine ⟨toks.map (fun t => Json.num t), wrapParse_commaJoin toks hne hnum,
      List.length_map _ _, ?_⟩
    rw [List.length_map]
    cases toks with
    | nil => exact absurd rfl hne
    | cons t ts => simp
  · intro hy v si sv k ef fl iv hv
    simp only [handleSearch, hv]
    rw [if_pos (show ([] : List Json).length = 0 from rfl)]
  · intro hy v si sv k ef fl iv hv
    simp only [handleSearch, hv]
  · intro hy input hid hv
    have hbody : parseVectorBody hy input =
        .error (.lit "Vector must be a non-empty array of numbers") := by
      rw [parseVectorBody, if_neg hid]
      simp only [hv]
      rw [if_pos (show ([] : List Json).length = 0 from rfl)]
    rw [parseVector, hbody]
  · intro hy input hid hv
    have hbody : parseVectorBody hy input = .error .jsonErr := by
      rw [parseVectorBody, if_neg hid]
      simp only [hv]
    rw [parseVector, hbody]

/-- C5 witness: the amended universal statement at "0.1,0.2,0.3" and at
the empty dense-vector text. -/
theorem c5_amended_witness :
    (∃ elems, wrapParse (commaJoin ["0.1", "0.2", "0.3"]) = some elems ∧
      elems.length = (["0.1", "0.2", "0.3"] : List String).length ∧
      1 ≤ elems.length) ∧
    handleSearch false "" "" "" "5" "" "" false =
      .error (.lit "Vector must be a non-empty array of numbers") :=
  ⟨c5_amended.1 ["0.1", "0.2", "0.3"] (by decide) (by decide),
   c5_amended.2.2.1 false "" "" "" "5" "" "" false rfl⟩

/-- C2 counterexample: a row whose metadata text is the invalid JSON
left-brace produces the identical error whether it sits at position 0 of
the batch or at position 1 (after a valid row) — so the error message
cannot name the failing vector's position; it is the fixed
"Invalid vector data: " wrapper around the parse error. -/
theorem c2_counterexample :
    handleSubmitInsert false
      [⟨"a", "1", "", "", "", ""⟩, ⟨"b", "1", "", "", "\x7b", ""⟩] =
      .error (.invalidVectorData .jsonErr) ∧
    handleSubmitInsert false [⟨"b", "1", "", "", "\x7b", ""⟩] =
      .error (.invalidVectorData .jsonErr) :=
  ⟨rfl, rfl⟩

theorem insertSparse_not_hybrid (input : VectorInput) (base : VectorItem) :
    insertSparse false input base = .ok base := rfl

/-- C2 (amended): in the insert flow, a metadata or per-vector filter
field that fails to parse as JSON aborts the whole batch before any
network call, with the error "Invalid vector data: " followed by the JSON
parse error; the message does not depend on the failing vector's position
in the batch (it is the same whatever rows follow, and whatever parseable
rows precede). -/
theorem c2_amended (pre post : List VectorInput) (v : VectorInput)
    (hpre : ∀ u ∈ pre, rowNonEmpty u = true → ∃ w, parseVector false u = .ok w)
    (hid : ¬ (jsTrim v.id = ""))
    (hvec : ∃ a as, wrapParse v.vector = some (a :: as)) :
    (jsTrim v.meta ≠ "" → Json.parse v.meta = none →
      handleSubmitInsert false (pre ++ v :: post) =
        .error (.invalidVectorData .jsonErr)) ∧
    (jsTrim v.meta = "" → jsTrim v.filter ≠ "" → Json.parse v.filter = none →
      handleSubmitInsert false (pre ++ v :: post) =
        .error (.invalidVectorData .jsonErr)) := by
  obtain ⟨a, as, hw⟩ := hvec
  have hrow : rowNonEmpty v = true := by
    rw [rowNonEmpty]
    simp [hid]
  have hfilter : (pre ++ v :: post).filter rowNonEmpty =
      pre.filter rowNonEmpty ++ v :: post.filter rowNonEmpty := by
    rw [List.filter_append, List.filter_cons_of_pos hrow]
  have hok : ∀ x ∈ pre.filter rowNonEmpty, ∃ w, parseVector false x = .ok w := by
    intro x hx
    rw [List.mem_filter] at hx
    exact hpre x hx.1 hx.2
  have hcommon : ∀ e : ErrMsg, parseVector false v = .error e →
      handleSubmitInsert false (pre ++ v :: post) = .error e := by
    intro e hv
    rw [handleSubmitInsert, hfilter, submitCore]
    rw [if_neg (by simp : ¬ ((pre.filter rowNonEmpty ++
      v :: post.filter rowNonEmpty).length = 0))]
    rw [mapExcept_append_error (parseVector false) _ _ _ _ hok hv]
  constructor
  · intro hm hparse
    refine hcommon _ ?_
    have hbody : parseVectorBody false v = .error .jsonErr := by
      rw [parseVectorBody, if_neg hid]
      simp only [hw]
      rw [if_neg (by simp : ¬ ((a :: as).length = 0))]
      rw [insertSparse_not_hybrid]
      rw [if_pos hm]
      simp only [hparse, Option.map_none']
    rw [parseVector, hbody]
  · intro hm hf hparse
    refine hcommon _ ?_
    have hbody : parseVectorBody false v = .error .jsonErr := by
      rw [parseVectorBody, if_neg hid]
      simp only [hw]
      rw [if_neg (by simp : ¬ ((a :: as).length = 0))]
      rw [insertSparse_not_hybrid]
      rw [if_neg (fun hh => hh hm)]
      rw [if_pos hf]
      simp only [hparse, Option.map_none']
    rw [parseVector, hbody]

/-- C2 witness: the amended statement for a bad-metadata row preceded by a
valid row. -/
theorem c2_amended_witness :
    handleSubmitInsert false
      [⟨"a", "1", "", "", "", ""⟩, ⟨"b", "2", "", "", "not json", ""⟩] =
      .error (.invalidVectorData .jsonErr) :=
  (c2_amended [⟨"a", "1", "", "", "", ""⟩] [] ⟨"b", "2", "", "", "not json", ""⟩
    (by
      intro u hu _
      simp only [List.mem_singleton] at hu
      subst hu
      exact ⟨{ id := "a", vector := [Json.num "1"] }, rfl⟩)
    (by decide) ⟨Json.num "2", [], rfl⟩).1 (by decide) rfl

/-- C3 counterexample: a batch consisting of one fully-empty row yields
zero non-empty rows, and the submission fails with
"At least one vector is required" — not with
"At least one valid vector is required" as claimed. -/
theorem c3_counterexample :
    handleSubmitInsert false [⟨"", "", "", "", "", ""⟩] =
      .error (.lit "At least one vector is required") ∧
    ErrMsg.lit "At least one vector is required" ≠
      ErrMsg.lit "At least one valid vector is required" :=
  ⟨rfl, by decide⟩

/-- C3 (amended): rows whose id and vector texts both trim to empty are
silently skipped — removing such a row never changes the outcome; a batch
whose rows are all empty fails with "At least one vector is required" and
no network call; and the "At least one valid vector is required" branch is
unreachable: no batch ever produces that message, because a non-empty row
either parses (contributing to the batch) or aborts with an
"Invalid vector data" error. -/
theorem c3_amended :
    (∀ (hy : Bool) (pre post : List VectorInput) (r : VectorInput),
      jsTrim r.id = "" → jsTrim r.vector = "" →
      handleSubmitInsert hy (pre ++ r :: post) =
        handleSubmitInsert hy (pre ++ post)) ∧
    (∀ (hy : Bool) (vectors : List VectorInput),
      (∀ v ∈ vectors, jsTrim v.id = "" ∧ jsTrim v.vector = "") →
      handleSubmitInsert hy vectors =
        .error (.lit "At least one vector is required")) ∧
    (∀ (hy : Bool) (vectors : List VectorInput),
      handleSubmitInsert hy vectors ≠
        .error (.lit "At least one valid vector is required")) := by
  refine ⟨?_, ?_, ?_⟩
  · intro hy pre post r h1 h2
    have hrow : rowNonEmpty r = false := by
      rw [rowNonEmpty]
      simp [h1, h2]
    rw [handleSubmitInsert, handleSubmitInsert, List.filter_append,
      List.filter_append, List.filter_cons_of_neg]
    rw [hrow]
    simp
  · intro hy vectors hall
    have hfil : vectors.filter rowNonEmpty = [] := by
      rw [List.filter_eq_nil_iff]
      intro v hv
      obtain ⟨h1, h2⟩ := hall v hv
      rw [rowNonEmpty]
      simp [h1, h2]
    rw [handleSubmitInsert, hfil]
    rfl
  · intro hy vectors
    rw [handleSubmitInsert, submitCore]
    by_cases hlen : (vectors.filter rowNonEmpty).length = 0
    · rw [if_pos hlen]
      simp
    · rw [if_neg hlen]
      rcases hm : mapExcept (parseVector hy) (vectors.filter rowNonEmpty)
        with e | parsed
      · simp only [hm]
        obtain ⟨x, hx, hfx⟩ := mapExcept_error_mem _ _ _ hm
        obtain ⟨inner, rfl⟩ := parseVector_error_shape hy x e hfx
        simp
      · simp only [hm]
        have hplen := mapExcept_length _ _ _ hm
        rw [if_neg (by omega : ¬ (parsed.length = 0))]
        simp

/-- C3 witness: removing an empty placeholder row between two rows does
not change the outcome; a single-empty-row batch fails with the
"At least one vector is required" message. -/
theorem c3_amended_witness :
    handleSubmitInsert false
      [⟨"a", "1", "", "", "", ""⟩, ⟨"", "", "", "", "", ""⟩,
       ⟨"b", "2", "", "", "", ""⟩] =
      handleSubmitInsert false
        [⟨"a", "1", "", "", "", ""⟩, ⟨"b", "2", "", "", "", ""⟩] ∧
    handleSubmitInsert false [⟨"", "", "", "", "", ""⟩, ⟨"", "", "", "", "", ""⟩] =
      .error (.lit "At least one vector is required") :=
  ⟨c3_amended.1 false [⟨"a", "1", "", "", "", ""⟩] [⟨"b", "2", "", "", "", ""⟩]
     ⟨"", "", "", "", "", ""⟩ rfl rfl,
   c3_amended.2.1 false _ (by decide)⟩
